import Mathlib

/-!
Verification of the `errors` crate (error chain construction, traversal and
rendering).  The Rust source lives in `src/lib.rs`, `src/new.rs`,
`src/iter.rs` and `src/fmt.rs`; the definitions below are a shallow
embedding of it.

The universe of error values (`dyn Error` in Rust) is modelled by the
inductive `Err`.  It contains the two node kinds built by the crate
(`Wrapper` and `Opaque`, see `src/new.rs`), plain string errors (what a
`&str` converts into as a `BoxError`), and `OneDeep`, the foreign error
type defined in `src/fmt.rs`'s tests, which prints one level of its own
source chain by default and cooperates with the crate's suppress flag
(the `-` sign) by printing only its own text when that flag is set.

Rust `Formatter` state that the crate consults is modelled by `Flags`:
`plus` (`{:+}`, print the chain), `minus` (`{:-}`, suppress self chain),
`alt` (`{:#}`, block joiner) and `prec` (`{:.N}`, depth limit).
-/

structure Flags where
  plus : Bool
  minus : Bool
  alt : Bool
  prec : Option Nat
deriving DecidableEq

/-- No formatter flags requested: the `{}` format. -/
def defaultFlags : Flags := ⟨false, false, false, none⟩

/-- Only the sign-minus flag: the `{:-}` format used by the renderer to ask a
node to print its own top segment only. -/
def minusFlags : Flags := ⟨false, true, false, none⟩

/-- The universe of error values flowing through the crate.

* `str s` — a plain string error (`&str`/`String` converted into `BoxError`);
  its `Display` is the string itself, its `source()` is `None`.
* `wrapper m c` — `Wrapper { message: m, cause: c }` from `src/new.rs`
  (built by `errors::new` with `c = none` and by `errors::wrap` with
  `c = some _`).  The message itself is any `Debug + Display` value; the
  crate's tests use both strings and other error values there, so the
  message is again an `Err`.
* `opaque_ v` — `Opaque(v)` from `src/new.rs`, built by `errors::opaque`.
* `oneDeep i` — the foreign `OneDeep(i)` error type from `src/fmt.rs`
  tests: `source()` is `Some(i)`; `Display` prints `"one deep"` when the
  minus flag is set, else `"one deep: {}"` around `i`. -/
inductive Err where
  | str : String → Err
  | wrapper : Err → Option Err → Err
  | opaque_ : Err → Err
  | oneDeep : Err → Err

/-- Concrete runtime type tags, standing for the concrete Rust types a
`dyn Error` can be downcast to with `err.is::<T>()`. -/
inductive Kind where
  | kstr : Kind
  | kwrap : Kind
  | kopq : Kind
  | kone : Kind
deriving DecidableEq

/-- The concrete type of a node (what `downcast_ref`/`is` test against). -/
def kindOf : Err → Kind
  | .str _ => Kind.kstr
  | .wrapper _ _ => Kind.kwrap
  | .opaque_ _ => Kind.kopq
  | .oneDeep _ => Kind.kone

/-- `Error::source` of each node.

* `Wrapper::source` returns the stored cause (`src/new.rs` lines 139-141);
* `Opaque` keeps the default `source`, i.e. `None` ("No source chains for
  opaque errors!", `src/new.rs` lines 281-282);
* the string error has no source;
* `OneDeep::source` returns `Some(&*self.0)` (`src/fmt.rs` lines 126-130). -/
def errSource : Err → Option Err
  | .str _ => none
  | .wrapper _ c => c
  | .opaque_ _ => none
  | .oneDeep i => some i

/-- `err.is::<Opaque>()`, the downcast test used by the renderer
(`src/new.rs` lines 165 and 197). -/
def isOpaque : Err → Bool
  | .opaque_ _ => true
  | _ => false

/-- The joiner string chosen by `WrapperRef::joiner` (`src/new.rs` lines
151-157): the block joiner on the alternate flag, else the inline one. -/
def joiner (f : Flags) : String :=
  if f.alt then "\nCaused by: " else ": "

/-- `errors::iter::chain` (`src/iter.rs` lines 37-39 and 124-132): the node
itself followed by the sequence of its visible causes.  The iterator
`Iter::next` yields the current node and replaces it by `next.source()`;
unfolding that loop over our finite values gives this list. -/
def chain : Err → List Err
  | .str s => [Err.str s]
  | .wrapper m none => [Err.wrapper m none]
  | .wrapper m (some c) => Err.wrapper m (some c) :: chain c
  | .opaque_ v => [Err.opaque_ v]
  | .oneDeep i => Err.oneDeep i :: chain i

/-- `errors::iter::sources` (`src/iter.rs` lines 57-59): iteration starting
at `err.source()` instead of `err`. -/
def sourcesList (e : Err) : List Err :=
  match errSource e with
  | none => []
  | some c => chain c

/-- `errors::iter::is` (`src/iter.rs` lines 91-94):
`chain(err).any(|e| e.is::<E>())`. -/
def isK (k : Kind) (e : Err) : Bool :=
  (chain e).any fun x => kindOf x == k

/-- `errors::iter::find` (`src/iter.rs` lines 73-76):
`chain(err).find_map(|e| e.downcast_ref::<E>())`. -/
def findK (k : Kind) (e : Err) : Option Err :=
  (chain e).find? fun x => kindOf x == k

/-- `errors::iter::root` (`src/iter.rs` lines 114-118) is
`chain(err).last().expect(..)`.  The fallible part before the `expect` is
`Iterator::last`, i.e. `getLast?`; the `expect` is the assertion that this
is never `none`, settled by the theorems below. -/
def rootE (e : Err) : Option Err :=
  (chain e).getLast?

/-- Statement apparatus (not a function of the crate): does a node of
concrete type `k` occur anywhere in the tree of `e`, including inside the
hidden content of `Opaque` nodes and inside wrapper messages? -/
def occursK (k : Kind) : Err → Bool
  | .str s => kindOf (Err.str s) == k
  | .wrapper m c =>
      kindOf (Err.wrapper m c) == k || occursK k m ||
        (match c with
         | none => false
         | some cc => occursK k cc)
  | .opaque_ v => kindOf (Err.opaque_ v) == k || occursK k v
  | .oneDeep i => kindOf (Err.oneDeep i) == k || occursK k i

/-- Statement apparatus: does a node of concrete type `k` occur in the tree
of `e` without crossing an `Opaque` boundary?  `occursVisibleK k e = false`
together with `occursK k e = true` formalises "type `k` occurs only inside
the hidden content of opaque nodes of `e`". -/
def occursVisibleK (k : Kind) : Err → Bool
  | .str s => kindOf (Err.str s) == k
  | .wrapper m c =>
      kindOf (Err.wrapper m c) == k || occursVisibleK k m ||
        (match c with
         | none => false
         | some cc => occursVisibleK k cc)
  | .opaque_ v => kindOf (Err.opaque_ v) == k
  | .oneDeep i => kindOf (Err.oneDeep i) == k || occursVisibleK k i

/-- Statement apparatus: `e` is built only from plain strings and the
crate's own constructors — no foreign `OneDeep` node anywhere. -/
def noForeign : Err → Bool
  | .str _ => true
  | .wrapper m c =>
      noForeign m &&
        (match c with
         | none => true
         | some cc => noForeign cc)
  | .opaque_ v => noForeign v
  | .oneDeep _ => false

/-- The `Debug` rendering (for a non-alternate formatter).

* a boxed string error debug-prints as the quoted string;
* `Wrapper`/`WrapperRef` (`src/new.rs` lines 117-124 and 214-225): with a
  cause present, `debug_tuple("")` pairs the message's and the cause's
  debug forms as `(m, c)`; with no cause it is the message's debug form;
* `Opaque` (`src/new.rs` lines 269-273) forwards to the wrapped value's
  debug form unchanged;
* `OneDeep` derives `Debug`, printing `OneDeep(..)` around its field. -/
def debugE : Err → String
  | .str s => s.quote
  | .wrapper m none => debugE m
  | .wrapper m (some c) => "(" ++ debugE m ++ ", " ++ debugE c ++ ")"
  | .opaque_ v => debugE v
  | .oneDeep i => "OneDeep(" ++ debugE i ++ ")"

/-!
The `Display` rendering.  The crate's central piece is
`impl Display for WrapperRef` (`src/new.rs` lines 227-247):

* with the plus flag set it prints the message under `{:-}` (suppress
  flag), then the source chain — depth-limited by `fmt_max_sources` when a
  precision is given, unlimited by `fmt_all_sources` otherwise;
* without the plus flag it prints the message under `{}`, all flags reset.

`Wrapper` and `Opaque` both display by building a `WrapperRef` out of
their message (resp. wrapped value) and its `source()` and delegating to
the above; that body is inlined at both constructors below.  The chain
loops (`fmt_all_sources`, lines 159-178, and `fmt_max_sources`, lines
180-211) walk `iter::sources`, print the joiner before each element, and
on meeting an `Opaque` element hand the rest of the rendering over to it,
forwarding `{:+}`, the alternate flag and (for the limited variant) the
remaining budget.
-/

mutual

def displayE (e : Err) (f : Flags) : String :=
  match e with
  | .str s =>
    -- a plain string error forwards `Display` to the string itself,
    -- which honours a precision flag by truncation
    match f.prec with
    | some n => s.take n
    | none => s
  | .wrapper m c =>
    -- `Wrapper::fmt` via `WrapperRef { message: m, cause: source() = c }`
    if f.plus then
      displayE m minusFlags ++
        (match f.prec with
         | some n => maxFrom c f n
         | none => allFrom c f)
    else
      displayE m defaultFlags
  | .opaque_ v =>
    -- `Opaque::fmt` via `WrapperRef { message: v, cause: v.source() }`
    if f.plus then
      displayE v minusFlags ++
        (match f.prec with
         | some n => maxFrom (errSource v) f n
         | none => allFrom (errSource v) f)
    else
      displayE v defaultFlags
  | .oneDeep i =>
    -- foreign `OneDeep` (`src/fmt.rs` lines 116-124)
    if f.minus then "one deep" else "one deep: " ++ displayE i defaultFlags
termination_by sizeOf e
decreasing_by
all_goals
  have hsz : ∀ x : Err, sizeOf (errSource x) ≤ sizeOf x := by
    intro x
    cases x with
    | str s => simp [errSource]
    | wrapper m c => cases c <;> simp [errSource]
    | opaque_ v => simp [errSource]
    | oneDeep i => simp [errSource]
  try simp_wf
  try omega
  try exact Nat.lt_of_le_of_lt (hsz _) (by omega)

def allFrom (c : Option Err) (f : Flags) : String :=
  -- `fmt_all_sources`, iterating from the element `c` onwards
  match c with
  | none => ""
  | some e =>
    joiner f ++
      (if isOpaque e then
        displayE e ⟨true, false, f.alt, none⟩
       else
        displayE e minusFlags ++ allFrom (errSource e) f)
termination_by sizeOf c
decreasing_by
all_goals
  have hsz : ∀ x : Err, sizeOf (errSource x) ≤ sizeOf x := by
    intro x
    cases x with
    | str s => simp [errSource]
    | wrapper m c => cases c <;> simp [errSource]
    | opaque_ v => simp [errSource]
    | oneDeep i => simp [errSource]
  try simp_wf
  try omega
  try exact Nat.lt_of_le_of_lt (hsz _) (by omega)

def maxFrom (c : Option Err) (f : Flags) (max : Nat) : String :=
  -- `fmt_max_sources`: stop when the budget hits 0, else decrement and
  -- continue; an `Opaque` element receives the remaining budget
  match max with
  | 0 => ""
  | max' + 1 =>
    match c with
    | none => ""
    | some e =>
      joiner f ++
        (if isOpaque e then
          displayE e ⟨true, false, f.alt, some max'⟩
         else
          displayE e minusFlags ++ maxFrom (errSource e) f max')
termination_by sizeOf c
decreasing_by
all_goals
  have hsz : ∀ x : Err, sizeOf (errSource x) ≤ sizeOf x := by
    intro x
    cases x with
    | str s => simp [errSource]
    | wrapper m c => cases c <;> simp [errSource]
    | opaque_ v => simp [errSource]
    | oneDeep i => simp [errSource]
  try simp_wf
  try omega
  try exact Nat.lt_of_le_of_lt (hsz _) (by omega)

end

/-- The body of `impl Display for WrapperRef` (`src/new.rs` lines 227-247)
for an arbitrary message/cause pair, stated once so that the inlined
copies inside `displayE` can be related back to it. -/
def wrapperRefFmt (m : Err) (c : Option Err) (f : Flags) : String :=
  if f.plus then
    displayE m minusFlags ++
      (match f.prec with
       | some n => maxFrom c f n
       | none => allFrom c f)
  else
    displayE m defaultFlags

/-- `wrap_ref` (`src/new.rs` lines 83-88), the adapter used both by
`errors::fmt` (`src/fmt.rs` lines 50-52) and by `Main`'s debug rendering:
`WrapperRef { message: err, cause: err.source() }`. -/
def wrapRefOf (e : Err) (f : Flags) : String :=
  wrapperRefFmt e (errSource e) f

/-- `errors::Main` (`src/fmt.rs` line 18): a newtype around a boxed error,
usable as a program's top-level failure result. -/
structure MainE where
  inner : Err

/-- `impl<E: Into<BoxError>> From<E> for Main` (`src/fmt.rs` lines 27-31). -/
def mainFrom (e : Err) : MainE :=
  ⟨e⟩

/-- `impl Debug for Main` (`src/fmt.rs` lines 20-25):
`write!(f, "{:+#}", wrap_ref(&*self.0))`, i.e. the chain rendering with
the plus and alternate flags and no precision. -/
def mainDebug (m : MainE) : String :=
  wrapRefOf m.inner ⟨true, false, true, none⟩

/-- Statement apparatus: `v` is a leaf string error, or a `Wrapper` whose
message renders identically under the suppress flag (`{:-}`) and under no
flags.  Every value built by `errors::new`/`errors::wrap` from a plain
string message satisfies this. -/
def opaqueFaithful (v : Err) : Prop :=
  match v with
  | .str _ => True
  | .wrapper m _ => displayE m minusFlags = displayE m defaultFlags
  | _ => False

/-! Helper lemmas about the embedding. -/

/-- `Wrapper`'s display is `WrapperRef { message, cause: source() }`'s
display (`src/new.rs` lines 126-133 and 109-115). -/
theorem displayE_wrapper (m : Err) (c : Option Err) (f : Flags) :
    displayE (Err.wrapper m c) f = wrapperRefFmt m c f := by
  simp [displayE, wrapperRefFmt]

/-- `Opaque`'s display is `WrapperRef { message: v, cause: v.source() }`'s
display (`src/new.rs` lines 260-267 and 275-279). -/
theorem displayE_opaq (v : Err) (f : Flags) :
    displayE (Err.opaque_ v) f = wrapperRefFmt v (errSource v) f := by
  simp [displayE, wrapperRefFmt]

/-- `chain` follows exactly one `source()` step at a time. -/
theorem chain_unfold (e : Err) :
    chain e = e :: (errSource e).elim [] chain := by
  cases e with
  | str s => rfl
  | wrapper m c => cases c <;> rfl
  | opaque_ v => rfl
  | oneDeep i => rfl

theorem chain_ne_nil (e : Err) : chain e ≠ [] := by
  rw [chain_unfold]
  simp

theorem chain_head (e : Err) : (chain e).head? = some e := by
  rw [chain_unfold]
  rfl

theorem chain_zero (e : Err) : (chain e)[0]? = some e := by
  rw [chain_unfold]
  simp

theorem sourcesList_eq_tail (e : Err) : sourcesList e = (chain e).tail := by
  rw [chain_unfold]
  cases h : errSource e <;> simp [sourcesList, h]

/-- Stepping through `chain` follows the visible `source` relation:
whatever element sits at position `i`, position `i + 1` holds exactly that
element's visible cause (and the chain ends when it is absent). -/
theorem chain_succ (e : Err) :
    ∀ (i : Nat) (x : Err), (chain e)[i]? = some x → (chain e)[i + 1]? = errSource x := by
  induction e using chain.induct with
  | case1 s =>
    intro i x h
    cases i with
    | zero =>
      simp [chain] at h
      subst h
      simp [chain, errSource]
    | succ j => simp [chain] at h
  | case2 m =>
    intro i x h
    cases i with
    | zero =>
      simp [chain] at h
      subst h
      simp [chain, errSource]
    | succ j => simp [chain] at h
  | case3 m c ih =>
    intro i x h
    cases i with
    | zero =>
      simp [chain] at h
      subst h
      simp [chain, errSource, chain_zero]
    | succ j =>
      simp only [chain, List.getElem?_cons_succ] at h ⊢
      exact ih j x h
  | case4 v =>
    intro i x h
    cases i with
    | zero =>
      simp [chain] at h
      subst h
      simp [chain, errSource]
    | succ j => simp [chain] at h
  | case5 i0 ih =>
    intro i x h
    cases i with
    | zero =>
      simp [chain] at h
      subst h
      simp [chain, errSource, chain_zero]
    | succ j =>
      simp only [chain, List.getElem?_cons_succ] at h ⊢
      exact ih j x h

/-- An element of a chain with no visible cause is the last element: the
iterator of `src/iter.rs` never continues past it. -/
theorem chain_getLast_sourceless (e : Err) :
    ∀ x, x ∈ chain e → errSource x = none → (chain e).getLast? = some x := by
  induction e using chain.induct with
  | case1 s =>
    intro x hx hs
    simp [chain] at hx
    subst hx
    simp [chain]
  | case2 m =>
    intro x hx hs
    simp [chain] at hx
    subst hx
    simp [chain]
  | case3 m c ih =>
    intro x hx hs
    simp only [chain, List.mem_cons] at hx
    rcases hx with rfl | hx'
    · simp [errSource] at hs
    · have hlast := ih x hx' hs
      rw [chain, chain_unfold c]
      rw [chain_unfold c] at hlast
      cases h : errSource c <;> simp only [h, Option.elim] at hlast ⊢ <;>
        simpa [List.getLast?_cons_cons] using hlast
  | case4 v =>
    intro x hx hs
    simp [chain] at hx
    subst hx
    simp [chain]
  | case5 i0 ih =>
    intro x hx hs
    simp only [chain, List.mem_cons] at hx
    rcases hx with rfl | hx'
    · simp [errSource] at hs
    · have hlast := ih x hx' hs
      rw [chain, chain_unfold i0]
      rw [chain_unfold i0] at hlast
      cases h : errSource i0 <;> simp only [h, Option.elim] at hlast ⊢ <;>
        simpa [List.getLast?_cons_cons] using hlast

theorem mem_chain_visible (e : Err) :
    ∀ x, x ∈ chain e → occursVisibleK (kindOf x) e = true := by
  induction e using chain.induct with
  | case1 s =>
    intro x hx
    simp [chain] at hx
    subst hx
    simp [occursVisibleK, kindOf]
  | case2 m =>
    intro x hx
    simp [chain] at hx
    subst hx
    simp [occursVisibleK, kindOf]
  | case3 m c ih =>
    intro x hx
    simp only [chain, List.mem_cons] at hx
    rcases hx with rfl | hx'
    · simp [occursVisibleK, kindOf]
    · have := ih x hx'
      simp [occursVisibleK, this]
  | case4 v =>
    intro x hx
    simp [chain] at hx
    subst hx
    simp [occursVisibleK, kindOf]
  | case5 i0 ih =>
    intro x hx
    simp only [chain, List.mem_cons] at hx
    rcases hx with rfl | hx'
    · simp [occursVisibleK, kindOf]
    · have := ih x hx'
      simp [occursVisibleK, this]

/-- If type `k` has no visible occurrence in `e`, chain search cannot find
it: `is` is false and `find` is absent. -/
theorem not_visible_not_found (e : Err) (k : Kind)
    (h : occursVisibleK k e = false) : isK k e = false ∧ findK k e = none := by
  constructor
  · cases hk : isK k e with
    | false => rfl
    | true =>
      exfalso
      rw [isK, List.any_eq_true] at hk
      obtain ⟨x, hx, hpx⟩ := hk
      have : kindOf x = k := by simpa using hpx
      have hv := mem_chain_visible e x hx
      rw [this] at hv
      rw [hv] at h
      simp at h
  · cases hf : findK k e with
    | none => rfl
    | some x =>
      exfalso
      rw [findK] at hf
      have hx := List.mem_of_find?_eq_some hf
      have hpx := List.find?_some hf
      have : kindOf x = k := by simpa using hpx
      have hv := mem_chain_visible e x hx
      rw [this] at hv
      rw [hv] at h
      simp at h

theorem minus_eq_default_of_noForeign (m : Err) (h : noForeign m = true) :
    displayE m minusFlags = displayE m defaultFlags := by
  cases m with
  | str s => simp [displayE, minusFlags, defaultFlags]
  | wrapper m' c => simp [displayE, minusFlags, defaultFlags]
  | opaque_ v => simp [displayE, minusFlags, defaultFlags]
  | oneDeep i => simp [noForeign] at h

theorem allFrom_expand (c : Err) (alt : Bool) (h : noForeign c = true) :
    allFrom (some c) ⟨true, false, alt, none⟩ =
      joiner ⟨true, false, alt, none⟩ ++ displayE c ⟨true, false, alt, none⟩ := by
  cases c with
  | str s =>
    simp [allFrom, isOpaque, displayE, errSource, minusFlags, String.append_empty]
  | wrapper m c' =>
    have hm : noForeign m = true := by
      rw [noForeign.eq_def, Bool.and_eq_true] at h
      exact h.1
    simp only [allFrom, isOpaque, errSource]
    rw [displayE]
    simp only [Bool.false_eq_true, if_false, Bool.if_false_left]
    rw [minus_eq_default_of_noForeign m hm]
    rw [displayE]
    rfl
  | opaque_ v =>
    simp [allFrom, isOpaque]
  | oneDeep i =>
    simp [noForeign] at h

/-! The claims. -/

/-- C1: for every value `v`, `opaque(v)` reports its visible cause as absent,
an opaque node ends every chain that contains it (traversal never continues
into `v`'s cause chain), and consequently for any concrete type that occurs
in an error value but only behind the opaque boundary, `find` returns absent
and `is` returns false on that value's chain. -/
theorem opaque_hides_cause_chain (v : Err) :
    errSource (Err.opaque_ v) = none ∧
    (∀ e : Err, Err.opaque_ v ∈ chain e →
      (chain e).getLast? = some (Err.opaque_ v)) ∧
    (∀ (e : Err) (k : Kind), Err.opaque_ v ∈ chain e → occursK k e = true →
      occursVisibleK k e = false → isK k e = false ∧ findK k e = none) := by
  refine ⟨rfl, ?_, ?_⟩
  · intro e hmem
    exact chain_getLast_sourceless e _ hmem rfl
  · intro e k _ _ hvis
    exact not_visible_not_found e k hvis

/-- C1 witness: wrapping `opaque(OneDeep("a"))` under a message: the foreign
`OneDeep` type occurs in the value but only behind the opaque boundary, so
`is`/`find` cannot see it, and the opaque node ends the chain. -/
theorem opaque_hides_cause_chain_witness :
    occursK Kind.kone (Err.wrapper (Err.str "m")
        (some (Err.opaque_ (Err.oneDeep (Err.str "a"))))) = true ∧
    occursVisibleK Kind.kone (Err.wrapper (Err.str "m")
        (some (Err.opaque_ (Err.oneDeep (Err.str "a"))))) = false ∧
    (chain (Err.wrapper (Err.str "m")
        (some (Err.opaque_ (Err.oneDeep (Err.str "a")))))).getLast? =
      some (Err.opaque_ (Err.oneDeep (Err.str "a"))) ∧
    isK Kind.kone (Err.wrapper (Err.str "m")
        (some (Err.opaque_ (Err.oneDeep (Err.str "a"))))) = false ∧
    findK Kind.kone (Err.wrapper (Err.str "m")
        (some (Err.opaque_ (Err.oneDeep (Err.str "a"))))) = none := by
  have h := opaque_hides_cause_chain (Err.oneDeep (Err.str "a"))
  have hmem : Err.opaque_ (Err.oneDeep (Err.str "a")) ∈
      chain (Err.wrapper (Err.str "m")
        (some (Err.opaque_ (Err.oneDeep (Err.str "a"))))) := by
    simp [chain]
  have hocc : occursK Kind.kone (Err.wrapper (Err.str "m")
      (some (Err.opaque_ (Err.oneDeep (Err.str "a"))))) = true := rfl
  have hvis : occursVisibleK Kind.kone (Err.wrapper (Err.str "m")
      (some (Err.opaque_ (Err.oneDeep (Err.str "a"))))) = false := rfl
  have hmain := h.2.2 _ Kind.kone hmem hocc hvis
  exact ⟨hocc, hvis, h.2.1 _ hmem, hmain.1, hmain.2⟩

/-- C2 counterexample: the claim "for every `v`, the expanded rendering of
`opaque(v)` equals `v`'s own expanded rendering" fails at
`v = opaque(wrap("b", "a"))`: the outer opacity renders `"b"` while `v`
itself renders `"b: a"` — a doubly-opaque value drops its hidden chain from
the expanded text, because the inner opaque message is printed with the
chain flag reset. -/
theorem opaque_expand_cex :
    displayE (Err.opaque_ (Err.opaque_ (Err.wrapper (Err.str "b") (some (Err.str "a")))))
      ⟨true, false, false, none⟩ ≠
    displayE (Err.opaque_ (Err.wrapper (Err.str "b") (some (Err.str "a"))))
      ⟨true, false, false, none⟩ := by
  simp [displayE, allFrom, joiner, isOpaque, errSource, minusFlags, defaultFlags]

/-- C2 (amended): for every `v` that is a plain leaf error or a transparent
`Wrapper` whose message renders the same under the suppress flag as with no
flags (in particular everything `new`/`wrap` build from string messages),
and for either joiner style, the expanded rendering of `opaque(v)` equals
`v`'s own expanded rendering unchanged — opacity removes nothing from the
text, only from programmatic inspection. -/
theorem opaque_expand_eq (v : Err) (alt : Bool) (h : opaqueFaithful v) :
    displayE (Err.opaque_ v) ⟨true, false, alt, none⟩ =
      displayE v ⟨true, false, alt, none⟩ := by
  cases v with
  | str s =>
    simp [displayE, allFrom, errSource, minusFlags, String.append_empty]
  | wrapper m c =>
    have h' : displayE m (⟨false, true, false, none⟩ : Flags) =
        displayE m defaultFlags := h
    simp [displayE, errSource, minusFlags, h']
  | opaque_ w => simp [opaqueFaithful] at h
  | oneDeep i => simp [opaqueFaithful] at h

/-- C2 witness: `opaque(wrap("b", "a"))` expands to `"b: a"`, exactly the
expansion of the wrapped value. -/
theorem opaque_expand_eq_witness :
    opaqueFaithful (Err.wrapper (Err.str "b") (some (Err.str "a"))) ∧
    displayE (Err.opaque_ (Err.wrapper (Err.str "b") (some (Err.str "a"))))
      ⟨true, false, false, none⟩ = "b: a" := by
  have hf : opaqueFaithful (Err.wrapper (Err.str "b") (some (Err.str "a"))) := by
    simp [opaqueFaithful, displayE, minusFlags, defaultFlags]
  refine ⟨hf, ?_⟩
  rw [opaque_expand_eq _ false hf]
  simp [displayE, allFrom, joiner, isOpaque, errSource, minusFlags, defaultFlags]

/-- C3 counterexample: the claim "expanded rendering with a depth limit of 0
equals the default rendering" fails for the foreign `OneDeep` value: under
the renderer, expansion with limit 0 prints its message with the suppress
flag (`"one deep"`), while the default rendering prints it with flags reset
(`"one deep: a"`). -/
theorem limit_zero_cex :
    wrapRefOf (Err.oneDeep (Err.str "a")) ⟨true, false, false, some 0⟩ ≠
      wrapRefOf (Err.oneDeep (Err.str "a")) defaultFlags := by
  simp [wrapRefOf, wrapperRefFmt, maxFrom, displayE, errSource, minusFlags, defaultFlags]

/-- C3 (amended): for every error value whose own display is unaffected by
the suppress-self-chain flag (true of plain string errors and of every node
this crate constructs) and for either joiner style, rendering with
expand=true and depth limit 0 produces output identical to the default
top-message-only rendering. -/
theorem limit_zero_eq_default (e : Err) (alt : Bool)
    (h : displayE e minusFlags = displayE e defaultFlags) :
    wrapRefOf e ⟨true, false, alt, some 0⟩ = wrapRefOf e defaultFlags := by
  simp [wrapRefOf, wrapperRefFmt, maxFrom, defaultFlags, String.append_empty, h]

/-- C3 witness: for `wrap("b", "a")`, limit-0 expansion and default
rendering agree. -/
theorem limit_zero_eq_default_witness :
    displayE (Err.wrapper (Err.str "b") (some (Err.str "a"))) minusFlags =
      displayE (Err.wrapper (Err.str "b") (some (Err.str "a"))) defaultFlags ∧
    wrapRefOf (Err.wrapper (Err.str "b") (some (Err.str "a")))
        ⟨true, false, false, some 0⟩ =
      wrapRefOf (Err.wrapper (Err.str "b") (some (Err.str "a"))) defaultFlags := by
  have h : displayE (Err.wrapper (Err.str "b") (some (Err.str "a"))) minusFlags =
      displayE (Err.wrapper (Err.str "b") (some (Err.str "a"))) defaultFlags := by
    simp [displayE, minusFlags, defaultFlags]
  exact ⟨h, limit_zero_eq_default _ false h⟩

/-- C4 counterexample: the claim "the expanded rendering of `wrap(m, c)`
equals `m`'s text, then the joiner, then `c`'s expanded rendering" fails
when the message is the foreign `OneDeep` value: the expansion prints the
message under the suppress flag (`"one deep: z"`), not its default text
(`"one deep: a: z"`). -/
theorem wrap_render_cex :
    ¬ (displayE (Err.wrapper (Err.oneDeep (Err.str "a")) (some (Err.str "z")))
        ⟨true, false, false, none⟩ =
      displayE (Err.oneDeep (Err.str "a")) defaultFlags ++
        joiner ⟨true, false, false, none⟩ ++
        displayE (Err.str "z") ⟨true, false, false, none⟩) := by
  simp [displayE, allFrom, joiner, isOpaque, errSource, minusFlags, defaultFlags]

/-- C4 (amended): for every message `m` and cause `c` containing no foreign
non-cooperating node (everything built from strings and this crate's
constructors), and for either joiner: `wrap(m, c)`'s visible cause is `c`,
its default rendering is `m`'s text, and its expanded rendering is `m`'s
text, the joiner, then the expanded rendering of `c`. -/
theorem wrap_render_eq (m c : Err) (alt : Bool)
    (hm : noForeign m = true) (hc : noForeign c = true) :
    errSource (Err.wrapper m (some c)) = some c ∧
    displayE (Err.wrapper m (some c)) defaultFlags = displayE m defaultFlags ∧
    displayE (Err.wrapper m (some c)) ⟨true, false, alt, none⟩ =
      displayE m defaultFlags ++ joiner ⟨true, false, alt, none⟩ ++
        displayE c ⟨true, false, alt, none⟩ := by
  refine ⟨rfl, by simp [displayE, defaultFlags], ?_⟩
  have h1 : displayE (Err.wrapper m (some c)) ⟨true, false, alt, none⟩ =
      displayE m minusFlags ++ allFrom (some c) ⟨true, false, alt, none⟩ := by
    simp [displayE]
  rw [h1, allFrom_expand c alt hc, minus_eq_default_of_noForeign m hm,
    String.append_assoc]

/-- C4 witness: `wrap("b", "a")` at the inline joiner. -/
theorem wrap_render_eq_witness :
    noForeign (Err.str "b") = true ∧ noForeign (Err.str "a") = true ∧
    displayE (Err.wrapper (Err.str "b") (some (Err.str "a")))
        ⟨true, false, false, none⟩ =
      displayE (Err.str "b") defaultFlags ++ joiner ⟨true, false, false, none⟩ ++
        displayE (Err.str "a") ⟨true, false, false, none⟩ :=
  ⟨rfl, rfl, (wrap_render_eq (Err.str "b") (Err.str "a") false rfl rfl).2.2⟩

/-- C5: the chain `wrap("d", opaque(wrap("c", wrap("b","a"))))` renders with
expand=true and the inline joiner as exactly `"d: c: b: a"`, and with depth
limit 1 as exactly `"d: c"`: the limit is consumed by the opaque element
itself and the remaining budget is forwarded into the hidden wrapped
chain. -/
theorem wrap_opaque_concrete :
    displayE (Err.wrapper (Err.str "d") (some (Err.opaque_ (Err.wrapper (Err.str "c")
        (some (Err.wrapper (Err.str "b") (some (Err.str "a"))))))))
      ⟨true, false, false, none⟩ = "d: c: b: a" ∧
    displayE (Err.wrapper (Err.str "d") (some (Err.opaque_ (Err.wrapper (Err.str "c")
        (some (Err.wrapper (Err.str "b") (some (Err.str "a"))))))))
      ⟨true, false, false, some 1⟩ = "d: c" := by
  constructor <;>
    simp [displayE, allFrom, maxFrom, joiner, isOpaque, errSource, minusFlags,
      defaultFlags]

/-- C6: for every failure value converted into `Main`, the debug rendering
of the `Main` value is exactly the chain renderer's output on that value
with expand=true, the block joiner `"\nCaused by: "`, and no depth limit —
the full cause chain is printed regardless of how the value was wrapped. -/
theorem main_debug_full_chain (e : Err) :
    mainDebug (mainFrom e) = wrapRefOf e ⟨true, false, true, none⟩ ∧
    joiner ⟨true, false, true, none⟩ = "\nCaused by: " ∧
    wrapRefOf e ⟨true, false, true, none⟩ =
      displayE e minusFlags ++ allFrom (errSource e) ⟨true, false, true, none⟩ := by
  refine ⟨rfl, rfl, ?_⟩
  simp [wrapRefOf, wrapperRefFmt]

/-- C7: `chain(x)` yields `x` itself first (so its length is at least 1),
each subsequent element is the previous element's visible cause, and
`sources(x)` is exactly `chain(x)` with the first element skipped. -/
theorem chain_yields_self_then_sources (e : Err) :
    (chain e).head? = some e ∧
    1 ≤ (chain e).length ∧
    (∀ (i : Nat) (x : Err), (chain e)[i]? = some x → (chain e)[i + 1]? = errSource x) ∧
    sourcesList e = (chain e).tail := by
  refine ⟨chain_head e, ?_, chain_succ e, sourcesList_eq_tail e⟩
  exact List.length_pos.mpr (chain_ne_nil e)

/-- C7 witness: in `chain(wrap("b","a"))` the element after position 0 is
the visible cause of the wrapper. -/
theorem chain_yields_self_then_sources_witness :
    (chain (Err.wrapper (Err.str "b") (some (Err.str "a"))))[0 + 1]? =
      errSource (Err.wrapper (Err.str "b") (some (Err.str "a"))) :=
  (chain_yields_self_then_sources _).2.2.1 0 _ rfl

/-- C8: `root(x)` is always defined — the "chain is empty" branch behind the
`expect` in `src/iter.rs` is unreachable — and equals the last element of
`chain(x)`; for a leaf node with no visible cause, `root(x)` is `x`
itself. -/
theorem root_is_defined_and_last (e : Err) :
    rootE e ≠ none ∧
    rootE e = (chain e).getLast? ∧
    (errSource e = none → rootE e = some e) := by
  refine ⟨?_, rfl, ?_⟩
  · rw [rootE]
    exact Option.isSome_iff_ne_none.mp (List.getLast?_isSome.mpr (chain_ne_nil e))
  · intro h
    rw [rootE, chain_unfold, h]
    rfl

/-- C8 witness: the leaf string error `"a"` is its own root. -/
theorem root_is_defined_and_last_witness :
    errSource (Err.str "a") = none ∧ rootE (Err.str "a") = some (Err.str "a") :=
  ⟨rfl, (root_is_defined_and_last (Err.str "a")).2.2 rfl⟩

/-- C9: for every `v`, displaying `opaque(v)` without the chain flag prints
`v`'s own display with all formatter flags reset — so a wrapped foreign type
that prints its own nested chain by default still prints that full chain in
the nominal top-message-only mode of the opaque node. -/
theorem opaque_default_display (v : Err) (f : Flags) (h : f.plus = false) :
    displayE (Err.opaque_ v) f = displayE v defaultFlags := by
  simp [displayE, h]

/-- C9 witness: `opaque(OneDeep("a"))` displayed with no flags prints
`"one deep: a"` — the foreign value's full self-printed chain. -/
theorem opaque_default_display_witness :
    defaultFlags.plus = false ∧
    displayE (Err.opaque_ (Err.oneDeep (Err.str "a"))) defaultFlags = "one deep: a" := by
  refine ⟨rfl, ?_⟩
  rw [opaque_default_display _ _ rfl]
  simp [displayE, defaultFlags]

/-- C10: the debug rendering of `opaque(v)` is the debug rendering of `v`
unchanged — the opaque node adds no wrapper structure of its own — unlike a
`Wrapper` node, whose debug rendering pairs its message's debug form with
its cause's debug form when a cause is present (and is the message's debug
form alone otherwise). -/
theorem opaque_debug_transparent (v m c : Err) :
    debugE (Err.opaque_ v) = debugE v ∧
    debugE (Err.wrapper m (some c)) = "(" ++ debugE m ++ ", " ++ debugE c ++ ")" ∧
    debugE (Err.wrapper m none) = debugE m :=
  ⟨rfl, rfl, rfl⟩
